import Mathlib

/-!
Shallow embedding of `src/twen.rs`, an in-memory ERC20-style token ledger.

`HashMap<String, u128>` is embedded as an association list `List (String × Nat)`
with HashMap semantics: `HMap.lookup` reads the first entry of the key,
`HMap.insert` replaces the value of the first entry in place (or appends the
pair when the key is absent).  `u128` values are embedded as `Nat`; the two
unchecked u128 additions of the source are embedded with an explicit
`% 2 ^ 128`.  Rust's `Result<(), TokenError>` becomes `Except TokenError Unit`,
returned together with the post-call state; `transfer_from` returns an
`Option` of that pair, `none` embedding the panic of the
`.get_mut(from).unwrap()` on line 126 of the source.
-/

set_option maxHeartbeats 1000000

namespace Twen

abbrev HMap (α : Type) : Type := List (String × α)

def HMap.lookup {α : Type} (m : HMap α) (k : String) : Option α :=
  match m with
  | [] => none
  | (k', v) :: rest => if k' = k then some v else HMap.lookup rest k

def HMap.insert {α : Type} (m : HMap α) (k : String) (v : α) : HMap α :=
  match m with
  | [] => [(k, v)]
  | (k', v') :: rest => if k' = k then (k, v) :: rest else (k', v') :: HMap.insert rest k v

def HMap.sumValues (m : HMap Nat) : Nat :=
  (m.map Prod.snd).sum

/-- The number of values of `u128`: additions in the source are `u128` additions. -/
def U128 : Nat := 2 ^ 128

structure ERC20Token where
  name : String
  symbol : String
  decimals : Nat
  total_supply : Nat
  balances : HMap Nat
  allowances : HMap (HMap Nat)
deriving DecidableEq, Repr

inductive TokenError where
  | InsufficientBalance
  | InsufficientAllowance
  | InvalidAddress
deriving DecidableEq, Repr

/-- `ERC20Token::new` (src/twen.rs lines 22-34). -/
def ERC20Token.new (name symbol : String) (decimals : Nat) (initial_supply : Nat)
    (owner : String) : ERC20Token :=
  { name := name
    symbol := symbol
    decimals := decimals
    total_supply := initial_supply
    balances := HMap.insert [] owner initial_supply
    allowances := [] }

/-- `balance_of` (src/twen.rs lines 57-59): mapped value, or 0 when absent. -/
def ERC20Token.balance_of (t : ERC20Token) (address : String) : Nat :=
  (HMap.lookup t.balances address).getD 0

/-- `allowance` (src/twen.rs lines 99-105): nested mapped value, or 0 when absent. -/
def ERC20Token.allowance (t : ERC20Token) (owner spender : String) : Nat :=
  ((HMap.lookup t.allowances owner).bind (fun inner => HMap.lookup inner spender)).getD 0

/-- `transfer` (src/twen.rs lines 62-81).  The pair carries the returned
`Result` together with the state of the ledger after the call. -/
def ERC20Token.transfer (t : ERC20Token) («from» «to» : String) (amount : Nat) :
    Except TokenError Unit × ERC20Token :=
  if «from» = "" ∨ «to» = "" then
    (Except.error TokenError.InvalidAddress, t)
  else
    let from_balance := t.balance_of «from»
    if from_balance < amount then
      (Except.error TokenError.InsufficientBalance, t)
    else
      let t1 : ERC20Token :=
        { t with balances := HMap.insert t.balances «from» (from_balance - amount) }
      let to_balance := t1.balance_of «to»
      (Except.ok (),
        { t1 with balances := HMap.insert t1.balances «to» ((to_balance + amount) % U128) })

/-- `approve` (src/twen.rs lines 84-96): `entry(owner).or_insert_with(HashMap::new)`
reads the owner's inner map (empty when absent) and `insert(spender, amount)`
overwrites the spender's entry. -/
def ERC20Token.approve (t : ERC20Token) (owner spender : String) (amount : Nat) :
    Except TokenError Unit × ERC20Token :=
  if owner = "" ∨ spender = "" then
    (Except.error TokenError.InvalidAddress, t)
  else
    let inner := (HMap.lookup t.allowances owner).getD []
    (Except.ok (),
      { t with allowances := HMap.insert t.allowances owner (HMap.insert inner spender amount) })

/-- `transfer_from` (src/twen.rs lines 108-138).  `none` embeds the panic of
`self.allowances.get_mut(from).unwrap()` when `from` has no entry in the outer
allowances map (line 126); otherwise `some` of the returned `Result` and the
post-call state. -/
def ERC20Token.transfer_from (t : ERC20Token) (spender «from» «to» : String) (amount : Nat) :
    Option (Except TokenError Unit × ERC20Token) :=
  if spender = "" ∨ «from» = "" ∨ «to» = "" then
    some (Except.error TokenError.InvalidAddress, t)
  else
    let current_allowance := t.allowance «from» spender
    if current_allowance < amount then
      some (Except.error TokenError.InsufficientAllowance, t)
    else
      let from_balance := t.balance_of «from»
      if from_balance < amount then
        some (Except.error TokenError.InsufficientBalance, t)
      else
        match HMap.lookup t.allowances «from» with
        | none => none
        | some inner =>
          let t1 : ERC20Token :=
            { t with
                allowances :=
                  HMap.insert t.allowances «from»
                    (HMap.insert inner spender (current_allowance - amount))
                balances := HMap.insert t.balances «from» (from_balance - amount) }
          let to_balance := t1.balance_of «to»
          some (Except.ok (),
            { t1 with balances := HMap.insert t1.balances «to» ((to_balance + amount) % U128) })

/-- One successful mutating call on the ledger. -/
inductive Step : ERC20Token → ERC20Token → Prop where
  | transfer : ∀ (t t' : ERC20Token) («from» «to» : String) (amount : Nat),
      t.transfer «from» «to» amount = (Except.ok (), t') → Step t t'
  | approve : ∀ (t t' : ERC20Token) (owner spender : String) (amount : Nat),
      t.approve owner spender amount = (Except.ok (), t') → Step t t'
  | transfer_from : ∀ (t t' : ERC20Token) (spender «from» «to» : String) (amount : Nat),
      t.transfer_from spender «from» «to» amount = some (Except.ok (), t') → Step t t'

/-- A ledger state produced by `new` (with a `u128` initial supply) followed by
any sequence of successful mutating calls. -/
def Reachable (t : ERC20Token) : Prop :=
  ∃ (name symbol : String) (decimals initial_supply : Nat) (owner : String),
    initial_supply < U128 ∧
    Relation.ReflTransGen Step (ERC20Token.new name symbol decimals initial_supply owner) t

instance {ε α : Type} [DecidableEq ε] [DecidableEq α] : DecidableEq (Except ε α) := fun x y =>
  match x, y with
  | Except.ok a, Except.ok b =>
    if h : a = b then isTrue (by rw [h]) else isFalse (fun hh => h (Except.ok.inj hh))
  | Except.error e, Except.error f =>
    if h : e = f then isTrue (by rw [h]) else isFalse (fun hh => h (Except.error.inj hh))
  | Except.ok _, Except.error _ => isFalse (fun hh => Except.noConfusion hh)
  | Except.error _, Except.ok _ => isFalse (fun hh => Except.noConfusion hh)

theorem HMap.lookup_insert_self {α : Type} (m : HMap α) (k : String) (v : α) :
    HMap.lookup (HMap.insert m k v) k = some v := by
  induction m with
  | nil => simp [HMap.insert, HMap.lookup]
  | cons p rest ih =>
    obtain ⟨a, b⟩ := p
    by_cases h : a = k
    · simp [HMap.insert, HMap.lookup, h]
    · simp [HMap.insert, HMap.lookup, h, ih]

theorem HMap.lookup_insert_ne {α : Type} (m : HMap α) (k k' : String) (v : α) (h : k ≠ k') :
    HMap.lookup (HMap.insert m k v) k' = HMap.lookup m k' := by
  induction m with
  | nil => simp [HMap.insert, HMap.lookup, h]
  | cons p rest ih =>
    obtain ⟨a, b⟩ := p
    by_cases ha : a = k
    · subst ha
      simp [HMap.insert, HMap.lookup, h]
    · simp [HMap.insert, HMap.lookup, ha, ih]

theorem HMap.sumValues_cons (a : String) (b : Nat) (m : HMap Nat) :
    HMap.sumValues ((a, b) :: m) = b + HMap.sumValues m := by
  simp [HMap.sumValues]

theorem HMap.sumValues_insert (m : HMap Nat) (k : String) (v : Nat) :
    HMap.sumValues (HMap.insert m k v) + (HMap.lookup m k).getD 0 =
      HMap.sumValues m + v := by
  induction m with
  | nil => simp [HMap.insert, HMap.lookup, HMap.sumValues]
  | cons p rest ih =>
    obtain ⟨a, b⟩ := p
    by_cases h : a = k
    · simp [HMap.insert, HMap.lookup, HMap.sumValues_cons, h]
      omega
    · simp [HMap.insert, HMap.lookup, HMap.sumValues_cons, h]
      omega

theorem HMap.lookup_getD_le_sumValues (m : HMap Nat) (k : String) :
    (HMap.lookup m k).getD 0 ≤ HMap.sumValues m := by
  induction m with
  | nil => simp [HMap.lookup, HMap.sumValues]
  | cons p rest ih =>
    obtain ⟨a, b⟩ := p
    by_cases h : a = k
    · simp [HMap.lookup, HMap.sumValues_cons, h]
    · simp [HMap.lookup, HMap.sumValues_cons, h]
      omega

/-- A successful step preserves the balance sum's agreement with `total_supply`
and never changes `total_supply`. -/
theorem step_sum (t t' : ERC20Token) (h : Step t t')
    (hsum : HMap.sumValues t.balances = t.total_supply)
    (hlt : t.total_supply < U128) :
    HMap.sumValues t'.balances = t'.total_supply ∧ t'.total_supply = t.total_supply := by
  cases h with
  | transfer f g a heq =>
    simp only [ERC20Token.transfer] at heq
    split at heq
    · exact absurd (congrArg Prod.fst heq) (by simp)
    · split at heq
      · exact absurd (congrArg Prod.fst heq) (by simp)
      · rename_i hnz hba
        rw [Prod.mk.injEq] at heq
        obtain ⟨-, ht⟩ := heq
        subst ht
        simp only [ERC20Token.balance_of] at hba ⊢
        constructor
        · have h1 := HMap.sumValues_insert t.balances f
            ((HMap.lookup t.balances f).getD 0 - a)
          have h2 := HMap.lookup_getD_le_sumValues t.balances f
          have h4 := HMap.lookup_getD_le_sumValues
            (HMap.insert t.balances f ((HMap.lookup t.balances f).getD 0 - a)) g
          have hmod : ((HMap.lookup
              (HMap.insert t.balances f ((HMap.lookup t.balances f).getD 0 - a)) g).getD 0
                + a) % U128 =
              (HMap.lookup
                (HMap.insert t.balances f ((HMap.lookup t.balances f).getD 0 - a)) g).getD 0
                + a := Nat.mod_eq_of_lt (by omega)
          have h3 := HMap.sumValues_insert
            (HMap.insert t.balances f ((HMap.lookup t.balances f).getD 0 - a)) g
            (((HMap.lookup
              (HMap.insert t.balances f ((HMap.lookup t.balances f).getD 0 - a)) g).getD 0
                + a) % U128)
          rw [hmod] at h3 ⊢
          omega
        · trivial
  | approve o s a heq =>
    simp only [ERC20Token.approve] at heq
    split at heq
    · exact absurd (congrArg Prod.fst heq) (by simp)
    · rw [Prod.mk.injEq] at heq
      obtain ⟨-, ht⟩ := heq
      subst ht
      exact ⟨hsum, rfl⟩
  | transfer_from s f g a heq =>
    simp only [ERC20Token.transfer_from] at heq
    split at heq
    · exact absurd (congrArg (Option.map Prod.fst) heq) (by simp)
    · split at heq
      · exact absurd (congrArg (Option.map Prod.fst) heq) (by simp)
      · split at heq
        · exact absurd (congrArg (Option.map Prod.fst) heq) (by simp)
        · rename_i hnz hal hba
          split at heq
          · exact Option.noConfusion heq
          · rename_i inner hinner
            rw [Option.some.injEq, Prod.mk.injEq] at heq
            obtain ⟨-, ht⟩ := heq
            subst ht
            simp only [ERC20Token.balance_of] at hba ⊢
            constructor
            · have h1 := HMap.sumValues_insert t.balances f
                ((HMap.lookup t.balances f).getD 0 - a)
              have h2 := HMap.lookup_getD_le_sumValues t.balances f
              have h4 := HMap.lookup_getD_le_sumValues
                (HMap.insert t.balances f ((HMap.lookup t.balances f).getD 0 - a)) g
              have hmod : ((HMap.lookup
                  (HMap.insert t.balances f ((HMap.lookup t.balances f).getD 0 - a)) g).getD 0
                    + a) % U128 =
                  (HMap.lookup
                    (HMap.insert t.balances f ((HMap.lookup t.balances f).getD 0 - a)) g).getD 0
                    + a := Nat.mod_eq_of_lt (by omega)
              have h3 := HMap.sumValues_insert
                (HMap.insert t.balances f ((HMap.lookup t.balances f).getD 0 - a)) g
                (((HMap.lookup
                  (HMap.insert t.balances f ((HMap.lookup t.balances f).getD 0 - a)) g).getD 0
                    + a) % U128)
              rw [hmod] at h3 ⊢
              omega
            · trivial

/-- Conservation along any successful call sequence starting from `new`. -/
theorem conservation_aux (nm sy : String) (de supply : Nat) (ow : String) (t : ERC20Token)
    (hs : supply < U128)
    (h : Relation.ReflTransGen Step (ERC20Token.new nm sy de supply ow) t) :
    HMap.sumValues t.balances = t.total_supply ∧ t.total_supply = supply := by
  induction h with
  | refl => exact ⟨by simp [ERC20Token.new, HMap.insert, HMap.sumValues], rfl⟩
  | tail hsteps hstep ih =>
    obtain ⟨ih1, ih2⟩ := ih
    have hstep' := step_sum _ _ hstep ih1 (ih2 ▸ hs)
    exact ⟨hstep'.1, hstep'.2.trans ih2⟩

/-- Every reachable state has balance sum equal to `total_supply`, itself below `2 ^ 128`. -/
theorem reachable_inv (t : ERC20Token) (h : Reachable t) :
    HMap.sumValues t.balances = t.total_supply ∧ t.total_supply < U128 := by
  obtain ⟨nm, sy, de, supply, ow, hs, hrtg⟩ := h
  have hc := conservation_aux nm sy de supply ow t hs hrtg
  exact ⟨hc.1, hc.2 ▸ hs⟩

/-- The state a successful `transfer` produces: debit of `from` in place, then
credit of `to` read from the debited map. -/
theorem transfer_ok_state (t : ERC20Token) («from» «to» : String) (amount : Nat)
    (hz : ¬(«from» = "" ∨ «to» = "")) (hb : ¬ t.balance_of «from» < amount) :
    t.transfer «from» «to» amount =
      (Except.ok (),
        { t with balances :=
            (HMap.insert (HMap.insert t.balances «from» (t.balance_of «from» - amount)) «to»
              (((HMap.lookup (HMap.insert t.balances «from» (t.balance_of «from» - amount))
                  «to»).getD 0 + amount) % U128)) }) := by
  unfold ERC20Token.transfer
  rw [if_neg hz]
  dsimp only
  rw [if_neg hb]
  simp only [ERC20Token.balance_of]

/-- Claim C1: the sum of all balance values equals `total_supply` after any
sequence of successful mutating calls on a ledger made by `new`, and
`total_supply` always equals the `initial_supply` passed to `new`. -/
theorem conservation_of_supply (nm sy : String) (de supply : Nat) (ow : String)
    (t : ERC20Token) (hs : supply < U128)
    (h : Relation.ReflTransGen Step (ERC20Token.new nm sy de supply ow) t) :
    HMap.sumValues t.balances = t.total_supply ∧ t.total_supply = supply :=
  conservation_aux nm sy de supply ow t hs h

theorem conservation_of_supply_witness :
    HMap.sumValues
        (ERC20Token.new "T" "S" 0 10 "a").balances =
        (ERC20Token.new "T" "S" 0 10 "a").total_supply ∧
      (ERC20Token.new "T" "S" 0 10 "a").total_supply = 10 :=
  conservation_of_supply "T" "S" 0 10 "a" _ (by decide) Relation.ReflTransGen.refl

/-- Claim C2: a `transfer`, `approve` or `transfer_from` call that returns an
error leaves the whole ledger state exactly as it was before the call. -/
theorem errors_leave_state_unchanged (t : ERC20Token)
    («from» «to» owner spender sp : String) (amount : Nat) (e : TokenError) :
    ((t.transfer «from» «to» amount).1 = Except.error e →
      (t.transfer «from» «to» amount).2 = t) ∧
    ((t.approve owner spender amount).1 = Except.error e →
      (t.approve owner spender amount).2 = t) ∧
    (∀ (r : Except TokenError Unit) (t2 : ERC20Token),
      t.transfer_from sp «from» «to» amount = some (r, t2) → r = Except.error e → t2 = t) := by
  refine ⟨?_, ?_, ?_⟩
  · unfold ERC20Token.transfer
    split
    · intro _; rfl
    · dsimp only
      split
      · intro _; rfl
      · intro h; exact absurd h (by simp)
  · unfold ERC20Token.approve
    split
    · intro _; rfl
    · intro h; exact absurd h (by simp)
  · intro r t2 heq her
    simp only [ERC20Token.transfer_from] at heq
    split at heq
    · rw [Option.some.injEq, Prod.mk.injEq] at heq
      exact heq.2.symm
    · split at heq
      · rw [Option.some.injEq, Prod.mk.injEq] at heq
        exact heq.2.symm
      · split at heq
        · rw [Option.some.injEq, Prod.mk.injEq] at heq
          exact heq.2.symm
        · split at heq
          · exact Option.noConfusion heq
          · rw [Option.some.injEq, Prod.mk.injEq] at heq
            rw [← heq.1] at her
            exact absurd her (by simp)

theorem errors_leave_state_unchanged_witness :
    ((ERC20Token.new "T" "S" 0 10 "a").transfer "" "b" 1).2 = ERC20Token.new "T" "S" 0 10 "a" :=
  (errors_leave_state_unchanged (ERC20Token.new "T" "S" 0 10 "a") "" "b" "o" "s" "sp" 1
      TokenError.InvalidAddress).1 (by decide)

/-- Claim C4: with non-empty addresses, when `allowance(from, spender) < amount`
and `amount ≤ balance_of(from)`, `transfer_from` fails with
`InsufficientAllowance` (the allowance check comes before the balance check),
leaving the state unchanged. -/
theorem allowance_checked_before_balance (t : ERC20Token) (spender «from» «to» : String)
    (amount : Nat) (hs : spender ≠ "") (hf : «from» ≠ "") (hg : «to» ≠ "")
    (hal : t.allowance «from» spender < amount) (hbal : amount ≤ t.balance_of «from») :
    t.transfer_from spender «from» «to» amount =
      some (Except.error TokenError.InsufficientAllowance, t) := by
  unfold ERC20Token.transfer_from
  rw [if_neg (by simp [hs, hf, hg]), if_pos hal]

theorem allowance_checked_before_balance_witness :
    (ERC20Token.new "T" "S" 0 10 "a").transfer_from "s" "a" "b" 1 =
      some (Except.error TokenError.InsufficientAllowance, ERC20Token.new "T" "S" 0 10 "a") :=
  allowance_checked_before_balance (ERC20Token.new "T" "S" 0 10 "a") "s" "a" "b" 1
    (by decide) (by decide) (by decide) (by decide) (by decide)

/-- Claim C6: `transfer` returns `InvalidAddress` exactly when `from` or `to`
is empty; otherwise `InsufficientBalance` exactly when `balance_of(from) <
amount`; otherwise `Ok`. -/
theorem transfer_result_trichotomy (t : ERC20Token) («from» «to» : String) (amount : Nat) :
    ((t.transfer «from» «to» amount).1 = Except.error TokenError.InvalidAddress ↔
      («from» = "" ∨ «to» = "")) ∧
    (¬(«from» = "" ∨ «to» = "") →
      ((t.transfer «from» «to» amount).1 = Except.error TokenError.InsufficientBalance ↔
        t.balance_of «from» < amount)) ∧
    (¬(«from» = "" ∨ «to» = "") → ¬ t.balance_of «from» < amount →
      (t.transfer «from» «to» amount).1 = Except.ok ()) := by
  refine ⟨?_, ?_, ?_⟩ <;> unfold ERC20Token.transfer
  · split
    · rename_i h; simp [h]
    · rename_i h
      dsimp only
      split
      · simp [h]
      · simp [h]
  · intro h
    rw [if_neg h]
    dsimp only
    split
    · rename_i hb; simp [hb]
    · rename_i hb; simp [hb]
  · intro h hb
    rw [if_neg h]
    dsimp only
    rw [if_neg hb]

theorem transfer_result_trichotomy_witness :
    ((ERC20Token.new "T" "S" 0 10 "a").transfer "a" "b" 3).1 = Except.ok () :=
  (transfer_result_trichotomy (ERC20Token.new "T" "S" 0 10 "a") "a" "b" 3).2.2
    (by decide) (by decide)

/-- Claim C7: a second `approve` for the same owner/spender pair overwrites the
allowance with its amount; the two amounts are not added. -/
theorem approve_overwrites (t : ERC20Token) (owner spender : String) (a1 a2 : Nat)
    (ho : owner ≠ "") (hs : spender ≠ "") (t1 t2 : ERC20Token)
    (h1 : t.approve owner spender a1 = (Except.ok (), t1))
    (h2 : t1.approve owner spender a2 = (Except.ok (), t2)) :
    t2.allowance owner spender = a2 := by
  simp only [ERC20Token.approve] at h2
  rw [if_neg (by simp [ho, hs]), Prod.mk.injEq] at h2
  rw [← h2.2]
  simp [ERC20Token.allowance, HMap.lookup_insert_self]

theorem approve_overwrites_witness :
    (((ERC20Token.new "T" "S" 0 10 "alice").approve "alice" "bob" 100).2.approve
        "alice" "bob" 40).2.allowance "alice" "bob" = 40 :=
  approve_overwrites ((ERC20Token.new "T" "S" 0 10 "alice").approve "alice" "bob" 100).2
    "alice" "bob" 100 40 (by decide) (by decide) _ _ (by decide) rfl

/-- Claim C9: `new` credits the whole initial supply to `owner` (even an empty
`owner` is accepted unchecked), leaves every other balance zero, sets
`total_supply` to the initial supply and every allowance to zero. -/
theorem new_initializes_ledger (nm sy : String) (de supply : Nat) (ow : String) :
    (ERC20Token.new nm sy de supply ow).balance_of ow = supply ∧
    (∀ x : String, x ≠ ow → (ERC20Token.new nm sy de supply ow).balance_of x = 0) ∧
    (ERC20Token.new nm sy de supply ow).total_supply = supply ∧
    (∀ x y : String, (ERC20Token.new nm sy de supply ow).allowance x y = 0) := by
  refine ⟨?_, ?_, rfl, ?_⟩
  · simp [ERC20Token.new, ERC20Token.balance_of, HMap.insert, HMap.lookup]
  · intro x hx
    simp [ERC20Token.new, ERC20Token.balance_of, HMap.insert, HMap.lookup, Ne.symm hx]
  · intro x y
    simp [ERC20Token.new, ERC20Token.allowance, HMap.lookup]

theorem new_initializes_ledger_witness :
    (ERC20Token.new "T" "S" 0 5 "").balance_of "" = 5 ∧
    (ERC20Token.new "T" "S" 0 5 "").balance_of "bob" = 0 ∧
    (ERC20Token.new "T" "S" 0 5 "").total_supply = 5 ∧
    (ERC20Token.new "T" "S" 0 5 "").allowance "x" "y" = 0 :=
  ⟨(new_initializes_ledger "T" "S" 0 5 "").1,
   (new_initializes_ledger "T" "S" 0 5 "").2.1 "bob" (by decide),
   (new_initializes_ledger "T" "S" 0 5 "").2.2.1,
   (new_initializes_ledger "T" "S" 0 5 "").2.2.2 "x" "y"⟩

/-- Claim C3: refuted on the code.  `transfer_from` with `amount = 0` and
non-empty addresses passes the allowance check (`0 < 0` is false) and the
balance check, then `self.allowances.get_mut(from).unwrap()` panics because
`from` has no entry in the outer allowances map: the call neither returns
`Ok` nor one of the three `TokenError` values. -/
theorem transfer_from_zero_amount_unwrap_failure :
    (ERC20Token.new "T" "S" 0 10 "a").transfer_from "s" "a" "b" 0 = none := by
  decide

/-- Claim C5: a successful `transfer_from` with pairwise-distinct spender,
from and to, on a reachable ledger, debits `from` by `amount`, credits `to`
by `amount`, decrements the allowance by `amount` (not to zero), and leaves
the spender's balance unchanged. -/
theorem transfer_from_success_effects (t : ERC20Token) (spender «from» «to» : String)
    (amount : Nat) (t' : ERC20Token) (hreach : Reachable t)
    (hsf : spender ≠ «from») (hst : spender ≠ «to») (hft : «from» ≠ «to»)
    (h : t.transfer_from spender «from» «to» amount = some (Except.ok (), t')) :
    t'.balance_of «from» + amount = t.balance_of «from» ∧
    t'.balance_of «to» = t.balance_of «to» + amount ∧
    t'.allowance «from» spender + amount = t.allowance «from» spender ∧
    t'.balance_of spender = t.balance_of spender := by
  simp only [ERC20Token.transfer_from] at h
  split at h
  · exact absurd (congrArg (Option.map Prod.fst) h) (by simp)
  · split at h
    · exact absurd (congrArg (Option.map Prod.fst) h) (by simp)
    · split at h
      · exact absurd (congrArg (Option.map Prod.fst) h) (by simp)
      · rename_i hnz hal hba
        split at h
        · exact Option.noConfusion h
        · rename_i inner hinner
          rw [Option.some.injEq, Prod.mk.injEq] at h
          obtain ⟨-, ht⟩ := h
          subst ht
          simp only [ERC20Token.balance_of, ERC20Token.allowance] at hba hal ⊢
          obtain ⟨hsum, hlt⟩ := reachable_inv t hreach
          have h1 := HMap.sumValues_insert t.balances «from»
            ((HMap.lookup t.balances «from»).getD 0 - amount)
          have h2 := HMap.lookup_getD_le_sumValues t.balances «from»
          have h4 := HMap.lookup_getD_le_sumValues
            (HMap.insert t.balances «from» ((HMap.lookup t.balances «from»).getD 0 - amount))
            «to»
          have hmod : ((HMap.lookup
              (HMap.insert t.balances «from» ((HMap.lookup t.balances «from»).getD 0 - amount))
              «to»).getD 0 + amount) % U128 =
            (HMap.lookup
              (HMap.insert t.balances «from» ((HMap.lookup t.balances «from»).getD 0 - amount))
              «to»).getD 0 + amount := Nat.mod_eq_of_lt (by omega)

          refine ⟨?_, ?_, ?_, ?_⟩
          · rw [HMap.lookup_insert_ne _ «to» «from» _ (Ne.symm hft),
              HMap.lookup_insert_self]
            simp only [Option.getD_some]
            omega
          · rw [HMap.lookup_insert_self]
            simp only [Option.getD_some]
            rw [hmod, HMap.lookup_insert_ne _ «from» «to» _ hft]
          · rw [HMap.lookup_insert_self]
            simp only [Option.bind_some, Option.some_bind]
            rw [HMap.lookup_insert_self]
            simp only [Option.getD_some]
            omega
          · rw [HMap.lookup_insert_ne _ «to» spender _ (Ne.symm hst),
              HMap.lookup_insert_ne _ «from» spender _ (Ne.symm hsf)]

theorem transfer_from_success_effects_witness :
    ({ name := "T", symbol := "S", decimals := 0, total_supply := 1000,
        balances := [("alice", 700), ("dave", 300)],
        allowances := [("alice", [("charlie", 200)])] } : ERC20Token).balance_of "alice" + 300 =
      ({ name := "T", symbol := "S", decimals := 0, total_supply := 1000,
          balances := [("alice", 1000)],
          allowances := [("alice", [("charlie", 500)])] } : ERC20Token).balance_of "alice" ∧
    ({ name := "T", symbol := "S", decimals := 0, total_supply := 1000,
        balances := [("alice", 700), ("dave", 300)],
        allowances := [("alice", [("charlie", 200)])] } : ERC20Token).balance_of "dave" =
      ({ name := "T", symbol := "S", decimals := 0, total_supply := 1000,
          balances := [("alice", 1000)],
          allowances := [("alice", [("charlie", 500)])] } : ERC20Token).balance_of "dave" + 300 ∧
    ({ name := "T", symbol := "S", decimals := 0, total_supply := 1000,
        balances := [("alice", 700), ("dave", 300)],
        allowances := [("alice", [("charlie", 200)])] } : ERC20Token).allowance "alice" "charlie"
        + 300 =
      ({ name := "T", symbol := "S", decimals := 0, total_supply := 1000,
          balances := [("alice", 1000)],
          allowances := [("alice", [("charlie", 500)])] } : ERC20Token).allowance "alice"
          "charlie" ∧
    ({ name := "T", symbol := "S", decimals := 0, total_supply := 1000,
        balances := [("alice", 700), ("dave", 300)],
        allowances := [("alice", [("charlie", 200)])] } : ERC20Token).balance_of "charlie" =
      ({ name := "T", symbol := "S", decimals := 0, total_supply := 1000,
          balances := [("alice", 1000)],
          allowances := [("alice", [("charlie", 500)])] } : ERC20Token).balance_of "charlie" :=
  transfer_from_success_effects
    { name := "T", symbol := "S", decimals := 0, total_supply := 1000,
      balances := [("alice", 1000)], allowances := [("alice", [("charlie", 500)])] }
    "charlie" "alice" "dave" 300
    { name := "T", symbol := "S", decimals := 0, total_supply := 1000,
      balances := [("alice", 700), ("dave", 300)],
      allowances := [("alice", [("charlie", 200)])] }
    ⟨"T", "S", 0, 1000, "alice", by decide,
      Relation.ReflTransGen.tail Relation.ReflTransGen.refl
        (Step.approve _ _ "alice" "charlie" 500 (by decide))⟩
    (by decide) (by decide) (by decide) (by decide)

/-- Claim C8: with a non-empty address and sufficient balance, a self-transfer
returns `Ok` and leaves every balance (read through `balance_of`) unchanged. -/
theorem self_transfer_preserves_balances (t : ERC20Token) (addr : String) (amount : Nat)
    (ha : addr ≠ "") (hle : amount ≤ t.balance_of addr) (hw : t.balance_of addr < U128) :
    (t.transfer addr addr amount).1 = Except.ok () ∧
    ∀ x : String, (t.transfer addr addr amount).2.balance_of x = t.balance_of x := by
  have hz : ¬(addr = "" ∨ addr = "") := by simp [ha]
  have hb : ¬ t.balance_of addr < amount := by omega
  rw [transfer_ok_state t addr addr amount hz hb]
  refine ⟨rfl, ?_⟩
  intro x
  simp only [ERC20Token.balance_of] at hle hw ⊢
  by_cases hx : x = addr
  · subst hx
    rw [HMap.lookup_insert_self, HMap.lookup_insert_self]
    simp only [Option.getD_some]
    rw [Nat.sub_add_cancel hle, Nat.mod_eq_of_lt hw]
  · rw [HMap.lookup_insert_ne _ addr x _ (fun hc => hx hc.symm),
      HMap.lookup_insert_ne _ addr x _ (fun hc => hx hc.symm)]

theorem self_transfer_preserves_balances_witness :
    ((ERC20Token.new "T" "S" 0 10 "a").transfer "a" "a" 4).1 = Except.ok () ∧
    ((ERC20Token.new "T" "S" 0 10 "a").transfer "a" "a" 4).2.balance_of "a" =
      (ERC20Token.new "T" "S" 0 10 "a").balance_of "a" :=
  ⟨(self_transfer_preserves_balances (ERC20Token.new "T" "S" 0 10 "a") "a" 4
      (by decide) (by decide) (by decide)).1,
   (self_transfer_preserves_balances (ERC20Token.new "T" "S" 0 10 "a") "a" 4
      (by decide) (by decide) (by decide)).2 "a"⟩

/-- Claim C10: on any reachable ledger, the unchecked u128 credit additions of
`transfer` and `transfer_from` (`to_balance + amount`, read after the debit of
`from`) never overflow, because the balance sum equals `total_supply`, itself
below `2 ^ 128`. -/
theorem credit_addition_no_overflow (t : ERC20Token) (hreach : Reachable t)
    (spender «from» «to» : String) (amount : Nat) :
    (∀ t' : ERC20Token, t.transfer «from» «to» amount = (Except.ok (), t') →
      (HMap.lookup (HMap.insert t.balances «from» (t.balance_of «from» - amount)) «to»).getD 0
        + amount < U128) ∧
    (∀ t' : ERC20Token,
      t.transfer_from spender «from» «to» amount = some (Except.ok (), t') →
      (HMap.lookup (HMap.insert t.balances «from» (t.balance_of «from» - amount)) «to»).getD 0
        + amount < U128) := by
  obtain ⟨hsum, hlt⟩ := reachable_inv t hreach
  have h1 := HMap.sumValues_insert t.balances «from»
    ((HMap.lookup t.balances «from»).getD 0 - amount)
  have h2 := HMap.lookup_getD_le_sumValues t.balances «from»
  have h4 := HMap.lookup_getD_le_sumValues
    (HMap.insert t.balances «from» ((HMap.lookup t.balances «from»).getD 0 - amount)) «to»
  constructor
  · intro t' h
    simp only [ERC20Token.transfer] at h
    split at h
    · exact absurd (congrArg Prod.fst h) (by simp)
    · split at h
      · exact absurd (congrArg Prod.fst h) (by simp)
      · rename_i hnz hba
        simp only [ERC20Token.balance_of] at hba ⊢
        omega
  · intro t' h
    simp only [ERC20Token.transfer_from] at h
    split at h
    · exact absurd (congrArg (Option.map Prod.fst) h) (by simp)
    · split at h
      · exact absurd (congrArg (Option.map Prod.fst) h) (by simp)
      · split at h
        · exact absurd (congrArg (Option.map Prod.fst) h) (by simp)
        · rename_i hnz hal hba
          simp only [ERC20Token.balance_of] at hba ⊢
          omega

theorem credit_addition_no_overflow_witness :
    (HMap.lookup
        (HMap.insert (ERC20Token.new "T" "S" 0 10 "a").balances "a"
          ((ERC20Token.new "T" "S" 0 10 "a").balance_of "a" - 3)) "b").getD 0 + 3 < U128 :=
  (credit_addition_no_overflow (ERC20Token.new "T" "S" 0 10 "a")
      ⟨"T", "S", 0, 10, "a", by decide, Relation.ReflTransGen.refl⟩ "s" "a" "b" 3).1
    { name := "T", symbol := "S", decimals := 0, total_supply := 10,
      balances := [("a", 7), ("b", 3)], allowances := [] }
    (by decide)

end Twen
